import Mathlib

/-!
# Verification of the PilotAssistant AHRS core

Shallow embedding of the attitude-and-heading reference system of the
PilotAssistant repository, and proofs of the frozen claims about it.

Float arithmetic of the C source is modelled over the real numbers; the
degeneracy guards of the source (near-zero squared norms) are kept as in
the code, while `isfinite` checks are identically true over the reals and
are noted where they occur.  Pure integer and threshold code is modelled
over the integers and rationals so that concrete instances are decidable.
-/

namespace PilotAssistant

open Real

/-- Quaternion `(w, x, y, z)` as in `madgwick_filter.h` (fields `q0..q3`). -/
structure Quaternion where
  q0 : ℝ
  q1 : ℝ
  q2 : ℝ
  q3 : ℝ

/-- Madgwick filter state as in `madgwick_filter.h`. -/
structure MadgwickFilter where
  q : Quaternion
  beta : ℝ
  sample_freq : ℝ
  inv_sample_freq : ℝ

/-- Squared norm of a quaternion, as computed by the source
(`q0*q0 + q1*q1 + q2*q2 + q3*q3`). -/
def Quaternion.normSq (q : Quaternion) : ℝ :=
  q.q0 * q.q0 + q.q1 * q.q1 + q.q2 * q.q2 + q.q3 * q.q3

/-- The identity quaternion `(1,0,0,0)`. -/
def identityQuat : Quaternion := ⟨1, 0, 0, 0⟩

/-- `inv_sqrt` from `madgwick_filter.c`:
`if (x <= 1e-20f || !isfinite(x)) return 0.0f; return 1.0f / sqrtf(x);`.
Over the reals `isfinite` is identically true, so only the near-zero
guard remains. -/
noncomputable def inv_sqrt (x : ℝ) : ℝ :=
  if x ≤ 1e-20 then 0 else 1 / Real.sqrt x

/-- `reset_quaternion` from `madgwick_filter.c`: sets the quaternion to the
identity, leaving the other filter fields untouched. -/
def reset_quaternion (f : MadgwickFilter) : MadgwickFilter :=
  { f with q := identityQuat }

/-- The shared tail of both update functions (the `integrate_9dof` /
`integrate_6dof` labels): integrate the quaternion derivative scaled by
`inv_sample_freq`, then renormalize, resetting to the identity quaternion
when the squared norm is degenerate (`inv_sqrt` returned `0`). -/
noncomputable def integrateAndNormalize (f : MadgwickFilter)
    (qDot1 qDot2 qDot3 qDot4 : ℝ) : MadgwickFilter :=
  let nq0 := f.q.q0 + qDot1 * f.inv_sample_freq
  let nq1 := f.q.q1 + qDot2 * f.inv_sample_freq
  let nq2 := f.q.q2 + qDot3 * f.inv_sample_freq
  let nq3 := f.q.q3 + qDot4 * f.inv_sample_freq
  let q_sq := nq0 * nq0 + nq1 * nq1 + nq2 * nq2 + nq3 * nq3
  let recipNorm := inv_sqrt q_sq
  if recipNorm = 0 then reset_quaternion f
  else { f with q := ⟨nq0 * recipNorm, nq1 * recipNorm, nq2 * recipNorm, nq3 * recipNorm⟩ }

/-- Rate of change of the quaternion from the gyroscope (`qDot1..qDot4` in
both `madgwick_update` and `madgwick_update_imu`; the four lines are
identical in the two functions). -/
def gyroQDot (f : MadgwickFilter) (gx gy gz : ℝ) : ℝ × ℝ × ℝ × ℝ :=
  (0.5 * (-f.q.q1 * gx - f.q.q2 * gy - f.q.q3 * gz),
   0.5 * (f.q.q0 * gx + f.q.q2 * gz - f.q.q3 * gy),
   0.5 * (f.q.q0 * gy - f.q.q1 * gz + f.q.q3 * gx),
   0.5 * (f.q.q0 * gz + f.q.q1 * gy - f.q.q2 * gx))

/-- The corrective part of `madgwick_update_imu`: the quaternion derivative
after the (conditional) accelerometer gradient-descent feedback step.  The
`goto integrate_6dof` paths of the source return the uncorrected gyroscope
derivative.  The `isfinite(acc_sq)` conjunct of the validity check is
identically true over the reals. -/
noncomputable def imuCorrectedQDot (f : MadgwickFilter)
    (gx gy gz ax ay az : ℝ) : ℝ × ℝ × ℝ × ℝ :=
  let qd := gyroQDot f gx gy gz
  let acc_sq := ax * ax + ay * ay + az * az
  if acc_sq > 1e-8 then
    let recipNorm := inv_sqrt acc_sq
    if recipNorm = 0 then qd
    else
      let ax' := ax * recipNorm
      let ay' := ay * recipNorm
      let az' := az * recipNorm
      let _2q0 := 2 * f.q.q0
      let _2q1 := 2 * f.q.q1
      let _2q2 := 2 * f.q.q2
      let _2q3 := 2 * f.q.q3
      let _4q0 := 4 * f.q.q0
      let _4q1 := 4 * f.q.q1
      let _4q2 := 4 * f.q.q2
      let _8q1 := 8 * f.q.q1
      let _8q2 := 8 * f.q.q2
      let q0q0 := f.q.q0 * f.q.q0
      let q1q1 := f.q.q1 * f.q.q1
      let q2q2 := f.q.q2 * f.q.q2
      let q3q3 := f.q.q3 * f.q.q3
      let s0 := _4q0 * q2q2 + _2q2 * ax' + _4q0 * q1q1 - _2q1 * ay'
      let s1 := _4q1 * q3q3 - _2q3 * ax' + 4 * q0q0 * f.q.q1 - _2q0 * ay' - _4q1 +
        _8q1 * q1q1 + _8q1 * q2q2 + _4q1 * az'
      let s2 := 4 * q0q0 * f.q.q2 + _2q0 * ax' + _4q2 * q3q3 - _2q3 * ay' - _4q2 +
        _8q2 * q1q1 + _8q2 * q2q2 + _4q2 * az'
      let s3 := 4 * q1q1 * f.q.q3 - _2q1 * ax' + 4 * q2q2 * f.q.q3 - _2q2 * ay'
      let step_sq := s0 * s0 + s1 * s1 + s2 * s2 + s3 * s3
      if step_sq > 1e-12 then
        let r := inv_sqrt step_sq
        (qd.1 - f.beta * (s0 * r), qd.2.1 - f.beta * (s1 * r),
         qd.2.2.1 - f.beta * (s2 * r), qd.2.2.2 - f.beta * (s3 * r))
      else qd
  else qd

/-- `madgwick_update_imu` from `madgwick_filter.c`: 6-DOF update. -/
noncomputable def madgwick_update_imu (f : MadgwickFilter)
    (gx gy gz ax ay az : ℝ) : MadgwickFilter :=
  let qd := imuCorrectedQDot f gx gy gz ax ay az
  integrateAndNormalize f qd.1 qd.2.1 qd.2.2.1 qd.2.2.2

/-- The corrective part of the 9-DOF `madgwick_update`: the quaternion
derivative after the (conditional) accelerometer + magnetometer
gradient-descent feedback step.  The `goto integrate_9dof` paths of the
source return the uncorrected gyroscope derivative. -/
noncomputable def margCorrectedQDot (f : MadgwickFilter)
    (gx gy gz ax ay az mx my mz : ℝ) : ℝ × ℝ × ℝ × ℝ :=
  let qd := gyroQDot f gx gy gz
  let acc_sq := ax * ax + ay * ay + az * az
  if acc_sq > 1e-8 then
    let recipNormA := inv_sqrt acc_sq
    if recipNormA = 0 then qd
    else
      let ax' := ax * recipNormA
      let ay' := ay * recipNormA
      let az' := az * recipNormA
      let mag_sq := mx * mx + my * my + mz * mz
      let recipNormM := inv_sqrt mag_sq
      if recipNormM = 0 then qd
      else
        let mx' := mx * recipNormM
        let my' := my * recipNormM
        let mz' := mz * recipNormM
        let _2q0mx := 2 * f.q.q0 * mx'
        let _2q0my := 2 * f.q.q0 * my'
        let _2q0mz := 2 * f.q.q0 * mz'
        let _2q1mx := 2 * f.q.q1 * mx'
        let _2q0 := 2 * f.q.q0
        let _2q1 := 2 * f.q.q1
        let _2q2 := 2 * f.q.q2
        let _2q3 := 2 * f.q.q3
        let _2q0q2 := 2 * f.q.q0 * f.q.q2
        let _2q2q3 := 2 * f.q.q2 * f.q.q3
        let q0q0 := f.q.q0 * f.q.q0
        let q0q1 := f.q.q0 * f.q.q1
        let q0q2 := f.q.q0 * f.q.q2
        let q0q3 := f.q.q0 * f.q.q3
        let q1q1 := f.q.q1 * f.q.q1
        let q1q2 := f.q.q1 * f.q.q2
        let q1q3 := f.q.q1 * f.q.q3
        let q2q2 := f.q.q2 * f.q.q2
        let q2q3 := f.q.q2 * f.q.q3
        let q3q3 := f.q.q3 * f.q.q3
        let hx := mx' * q0q0 - _2q0my * f.q.q3 + _2q0mz * f.q.q2 +
          mx' * q1q1 + _2q1 * my' * f.q.q2 + _2q1 * mz' * f.q.q3 -
          mx' * q2q2 - mx' * q3q3
        let hy := _2q0mx * f.q.q3 + my' * q0q0 - _2q0mz * f.q.q1 +
          _2q1mx * f.q.q2 - my' * q1q1 + my' * q2q2 +
          _2q2 * mz' * f.q.q3 - my' * q3q3
        let _2bx := Real.sqrt (hx * hx + hy * hy)
        let _2bz := -_2q0mx * f.q.q2 + _2q0my * f.q.q1 + mz' * q0q0 +
          _2q1mx * f.q.q3 - mz' * q1q1 + _2q2 * my' * f.q.q3 -
          mz' * q2q2 + mz' * q3q3
        let _4bx := 2 * _2bx
        let _4bz := 2 * _2bz
        let s0 := -_2q2 * (2 * q1q3 - _2q0q2 - ax') +
          _2q1 * (2 * q0q1 + _2q2q3 - ay') -
          _2bz * f.q.q2 * (_2bx * (0.5 - q2q2 - q3q3) + _2bz * (q1q3 - q0q2) - mx') +
          (-_2bx * f.q.q3 + _2bz * f.q.q1) *
            (_2bx * (q1q2 - q0q3) + _2bz * (q0q1 + q2q3) - my') +
          _2bx * f.q.q2 * (_2bx * (q0q2 + q1q3) + _2bz * (0.5 - q1q1 - q2q2) - mz')
        let s1 := _2q3 * (2 * q1q3 - _2q0q2 - ax') +
          _2q0 * (2 * q0q1 + _2q2q3 - ay') -
          4 * f.q.q1 * (1 - 2 * q1q1 - 2 * q2q2 - az') +
          _2bz * f.q.q3 * (_2bx * (0.5 - q2q2 - q3q3) + _2bz * (q1q3 - q0q2) - mx') +
          (_2bx * f.q.q2 + _2bz * f.q.q0) *
            (_2bx * (q1q2 - q0q3) + _2bz * (q0q1 + q2q3) - my') +
          (_2bx * f.q.q3 - _4bz * f.q.q1) *
            (_2bx * (q0q2 + q1q3) + _2bz * (0.5 - q1q1 - q2q2) - mz')
        let s2 := -_2q0 * (2 * q1q3 - _2q0q2 - ax') +
          _2q3 * (2 * q0q1 + _2q2q3 - ay') -
          4 * f.q.q2 * (1 - 2 * q1q1 - 2 * q2q2 - az') +
          (-_4bx * f.q.q2 - _2bz * f.q.q0) *
            (_2bx * (0.5 - q2q2 - q3q3) + _2bz * (q1q3 - q0q2) - mx') +
          (_2bx * f.q.q1 + _2bz * f.q.q3) *
            (_2bx * (q1q2 - q0q3) + _2bz * (q0q1 + q2q3) - my') +
          (_2bx * f.q.q0 - _4bz * f.q.q2) *
            (_2bx * (q0q2 + q1q3) + _2bz * (0.5 - q1q1 - q2q2) - mz')
        let s3 := _2q1 * (2 * q1q3 - _2q0q2 - ax') +
          _2q2 * (2 * q0q1 + _2q2q3 - ay') +
          (-_4bx * f.q.q3 + _2bz * f.q.q1) *
            (_2bx * (0.5 - q2q2 - q3q3) + _2bz * (q1q3 - q0q2) - mx') +
          (-_2bx * f.q.q0 + _2bz * f.q.q2) *
            (_2bx * (q1q2 - q0q3) + _2bz * (q0q1 + q2q3) - my') +
          _2bx * f.q.q1 * (_2bx * (q0q2 + q1q3) + _2bz * (0.5 - q1q1 - q2q2) - mz')
        let step_sq := s0 * s0 + s1 * s1 + s2 * s2 + s3 * s3
        if step_sq > 1e-12 then
          let r := inv_sqrt step_sq
          (qd.1 - f.beta * (s0 * r), qd.2.1 - f.beta * (s1 * r),
           qd.2.2.1 - f.beta * (s2 * r), qd.2.2.2 - f.beta * (s3 * r))
        else qd
  else qd

/-- `madgwick_update` from `madgwick_filter.c`: 9-DOF update.  When the
magnetometer vector is exactly zero the source delegates to the IMU-only
update before computing anything else. -/
noncomputable def madgwick_update (f : MadgwickFilter)
    (gx gy gz ax ay az mx my mz : ℝ) : MadgwickFilter :=
  if mx = 0 ∧ my = 0 ∧ mz = 0 then
    madgwick_update_imu f gx gy gz ax ay az
  else
    let qd := margCorrectedQDot f gx gy gz ax ay az mx my mz
    integrateAndNormalize f qd.1 qd.2.1 qd.2.2.1 qd.2.2.2

/-! ## Euler conversion (part_012) and heading wrap (pico/attitude_indicator.c) -/

/-- Model of C `atan2f(y, x)`: the argument of the complex number `x + i y`,
which lies in `(-π, π]`. -/
noncomputable def atan2f (y x : ℝ) : ℝ := Complex.arg ⟨x, y⟩

/-- Model of C `copysignf(mag, sgn)` over the reals: the magnitude of `mag`
with the sign of `sgn`. -/
noncomputable def copysignf (mag sgn : ℝ) : ℝ := if sgn < 0 then -|mag| else |mag|

/-- `quaternion_to_euler` from `madgwick_filter.c`, returning
`(roll, pitch, yaw)` in radians.  The pitch argument `sinp` is range
checked: `if (fabsf(sinp) >= 1.0f) pitch = copysignf(M_PI / 2, sinp)`. -/
noncomputable def quaternion_to_euler (q : Quaternion) : ℝ × ℝ × ℝ :=
  let sinr_cosp := 2 * (q.q0 * q.q1 + q.q2 * q.q3)
  let cosr_cosp := 1 - 2 * (q.q1 * q.q1 + q.q2 * q.q2)
  let roll := atan2f sinr_cosp cosr_cosp
  let sinp := 2 * (q.q0 * q.q2 - q.q3 * q.q1)
  let pitch := if 1 ≤ |sinp| then copysignf (Real.pi / 2) sinp else Real.arcsin sinp
  let siny_cosp := 2 * (q.q0 * q.q3 + q.q1 * q.q2)
  let cosy_cosp := 1 - 2 * (q.q2 * q.q2 + q.q3 * q.q3)
  let yaw := atan2f siny_cosp cosy_cosp
  (roll, pitch, yaw)

/-- `madgwick_get_roll_deg`: roll in degrees. -/
noncomputable def madgwick_get_roll_deg (f : MadgwickFilter) : ℝ :=
  (quaternion_to_euler f.q).1 * 180 / Real.pi

/-- `madgwick_get_pitch_deg`: pitch in degrees. -/
noncomputable def madgwick_get_pitch_deg (f : MadgwickFilter) : ℝ :=
  (quaternion_to_euler f.q).2.1 * 180 / Real.pi

/-- `madgwick_get_yaw_deg`: yaw in degrees. -/
noncomputable def madgwick_get_yaw_deg (f : MadgwickFilter) : ℝ :=
  (quaternion_to_euler f.q).2.2 * 180 / Real.pi

/-- First loop of `wrap360` in `pico/attitude_indicator.c`:
`while (deg < 0.0f) deg += 360.0f;`. -/
noncomputable def wrapUp (deg : ℝ) : ℝ :=
  if h : deg < 0 then wrapUp (deg + 360) else deg
termination_by (⌈-deg / 360⌉).toNat
decreasing_by
  have h1 : -(deg + 360) / 360 = -deg / 360 - 1 := by ring
  have h2 : (⌈-(deg + 360) / 360⌉ : ℤ) = ⌈-deg / 360⌉ - 1 := by
    rw [h1, Int.ceil_sub_one]
  have h3 : 0 < ⌈-deg / 360⌉ :=
    Int.ceil_pos.mpr (div_pos (by linarith) (by norm_num))
  simp only [h2]
  omega

/-- Second loop of `wrap360`: `while (deg >= 360.0f) deg -= 360.0f;`. -/
noncomputable def wrapDown (deg : ℝ) : ℝ :=
  if h : 360 ≤ deg then wrapDown (deg - 360) else deg
termination_by (⌊deg / 360⌋).toNat
decreasing_by
  have h1 : (deg - 360) / 360 = deg / 360 - 1 := by ring
  have h2 : (⌊(deg - 360) / 360⌋ : ℤ) = ⌊deg / 360⌋ - 1 := by
    rw [h1, Int.floor_sub_one]
  have h3 : 0 < ⌊deg / 360⌋ := by
    have h4 : (1 : ℝ) ≤ deg / 360 := (one_le_div (by norm_num)).mpr h
    have h5 : (1 : ℤ) ≤ ⌊deg / 360⌋ := by
      rw [Int.le_floor]
      exact_mod_cast h4
    omega
  simp only [h2]
  omega

/-- `wrap360` from `pico/attitude_indicator.c`: wrap a heading in degrees
into `[0, 360)` by repeatedly adding, then subtracting, 360. -/
noncomputable def wrap360 (deg : ℝ) : ℝ := wrapDown (wrapUp deg)

/-! ## ICM20948 driver model (part_000) -/

/-- Enum values from `icm20948_sensor.h`.  The C `switch` in the conversion
functions operates on the underlying integer of the enum type, and a
`default` arm catches every other value, so ranges are modelled as
integers. -/
def ACCEL_RANGE_2G : ℤ := 0

/-- `ACCEL_RANGE_4G = 1` from `icm20948_sensor.h`. -/
def ACCEL_RANGE_4G : ℤ := 1

/-- `ACCEL_RANGE_8G = 2` from `icm20948_sensor.h`. -/
def ACCEL_RANGE_8G : ℤ := 2

/-- `ACCEL_RANGE_16G = 3` from `icm20948_sensor.h`. -/
def ACCEL_RANGE_16G : ℤ := 3

/-- `GYRO_RANGE_250DPS = 0` from `icm20948_sensor.h`. -/
def GYRO_RANGE_250DPS : ℤ := 0

/-- `GYRO_RANGE_500DPS = 1` from `icm20948_sensor.h`. -/
def GYRO_RANGE_500DPS : ℤ := 1

/-- `GYRO_RANGE_1000DPS = 2` from `icm20948_sensor.h`. -/
def GYRO_RANGE_1000DPS : ℤ := 2

/-- `GYRO_RANGE_2000DPS = 3` from `icm20948_sensor.h`. -/
def GYRO_RANGE_2000DPS : ℤ := 3

/-- `icm20948_accel_to_g` from part_000: raw signed 16-bit value divided by
the per-range sensitivity, defaulting to the ±4 g divisor 8192. -/
def icm20948_accel_to_g (raw_value : ℤ) (range : ℤ) : ℚ :=
  let sensitivity : ℚ :=
    if range = ACCEL_RANGE_2G then 16384
    else if range = ACCEL_RANGE_4G then 8192
    else if range = ACCEL_RANGE_8G then 4096
    else if range = ACCEL_RANGE_16G then 2048
    else 8192
  (raw_value : ℚ) / sensitivity

/-- `icm20948_gyro_to_dps` from part_000: raw signed 16-bit value divided
by the per-range sensitivity, defaulting to the ±500 deg/s divisor 65.5. -/
def icm20948_gyro_to_dps (raw_value : ℤ) (range : ℤ) : ℚ :=
  let sensitivity : ℚ :=
    if range = GYRO_RANGE_250DPS then 131
    else if range = GYRO_RANGE_500DPS then 65.5
    else if range = GYRO_RANGE_1000DPS then 32.8
    else if range = GYRO_RANGE_2000DPS then 16.4
    else 65.5
  (raw_value : ℚ) / sensitivity

/-- The C cast `(int16_t)` applied to a 16-bit combination: reinterpret the
low 16 bits as a signed value. -/
def toInt16 (n : ℕ) : ℤ :=
  if n % 65536 < 32768 then (n % 65536 : ℤ) else (n % 65536 : ℤ) - 65536

/-- Big-endian byte pair to signed 16-bit value:
`(int16_t)((hi << 8) | lo)`. -/
def combineBE (hi lo : ℕ) : ℤ := toInt16 ((hi <<< 8) ||| lo)

/-- `icm20948_read_accel` from part_000: returns failure only when the
output pointer is NULL (`dataNull`).  The underlying SPI burst
(`read_registers`) returns no status, so whatever bytes the bus produced
(`buf`) are combined and the function returns success. -/
def icm20948_read_accel (dataNull : Bool) (buf : Fin 6 → ℕ) :
    Option (ℤ × ℤ × ℤ) :=
  if dataNull then none
  else some (combineBE (buf 0) (buf 1), combineBE (buf 2) (buf 3),
    combineBE (buf 4) (buf 5))

/-- `icm20948_read_gyro` from part_000: same shape as the accelerometer
read. -/
def icm20948_read_gyro (dataNull : Bool) (buf : Fin 6 → ℕ) :
    Option (ℤ × ℤ × ℤ) :=
  if dataNull then none
  else some (combineBE (buf 0) (buf 1), combineBE (buf 2) (buf 3),
    combineBE (buf 4) (buf 5))

/-- `icm20948_read_accel_gyro` from part_000: 12-byte burst; fails only if
either output pointer is NULL. -/
def icm20948_read_accel_gyro (accelNull gyroNull : Bool) (buf : Fin 12 → ℕ) :
    Option ((ℤ × ℤ × ℤ) × (ℤ × ℤ × ℤ)) :=
  if accelNull || gyroNull then none
  else some ((combineBE (buf 0) (buf 1), combineBE (buf 2) (buf 3),
      combineBE (buf 4) (buf 5)),
    (combineBE (buf 6) (buf 7), combineBE (buf 8) (buf 9),
      combineBE (buf 10) (buf 11)))

/-- `icm20948_read_mag` from part_000: after the NULL check, the ST1
data-ready bit (bit 0 of byte 0) and the ST2 overflow bit (bit 3 of byte
7) can each fail the read; data bytes 1..6 are combined little-endian. -/
def icm20948_read_mag (dataNull : Bool) (buf : Fin 8 → ℕ) :
    Option (ℤ × ℤ × ℤ) :=
  if dataNull then none
  else if buf 0 &&& 1 = 0 then none
  else if buf 7 &&& 8 ≠ 0 then none
  else some (combineBE (buf 2) (buf 1), combineBE (buf 4) (buf 3),
    combineBE (buf 6) (buf 5))

/-! ## Warning evaluation (part_010) -/

/-- Speed-dependent bank limit from `send_telemetry_to_pico` and
`draw_attitude_indicator` in part_010:
`(gps_data.speed_knots <= 85.0f) ? 20.0f : 30.0f`. -/
def bank_limit (speed_knots : ℚ) : ℚ := if speed_knots ≤ 85 then 20 else 30

/-- `bank_warning = fabs(attitude.roll) > bank_limit` (part_010). -/
def bank_warning (speed_knots roll : ℚ) : Bool :=
  decide (|roll| > bank_limit speed_knots)

/-- `pitch_warning = fabs(attitude.pitch) > 20.0f` (part_010). -/
def pitch_warning (pitch : ℚ) : Bool := decide (|pitch| > 20)

/-! ## Scheduler tick of the AHRS loop (part_003) -/

/-- The dt validation of the AHRS loop in `action_test_gyro` (part_003):
`if (dt <= 0.0f || dt > 0.2f) { dt = 0.01f; }`. -/
noncomputable def validate_dt (dt : ℝ) : ℝ :=
  if dt ≤ 0 ∨ dt > 0.2 then 0.01 else dt

/-- The dt clamp of `attitude_indicator_run` (pico/attitude_indicator.c):
`if (measured_dt < 0.001f) measured_dt = 0.001f;`
`if (measured_dt > 0.05f) measured_dt = 0.05f;`. -/
noncomputable def pico_clamp_dt (measured_dt : ℝ) : ℝ :=
  let m1 := if measured_dt < 0.001 then 0.001 else measured_dt
  if m1 > 0.05 then 0.05 else m1

/-- The stationary condition of the adaptive bias trim (part_003):
accelerometer norm within 0.08 of 1 g and all three bias-corrected gyro
rates below 1.2 deg/s in magnitude.  `isfinite(acc_norm)` is identically
true over the reals. -/
def gyroStationary (ax ay az gxr gyr gzr b1 b2 b3 : ℝ) : Prop :=
  |Real.sqrt (ax * ax + ay * ay + az * az) - 1| < 0.08 ∧
  |gxr - b1| < 1.2 ∧ |gyr - b2| < 1.2 ∧ |gzr - b3| < 1.2

noncomputable instance (ax ay az gxr gyr gzr b1 b2 b3 : ℝ) :
    Decidable (gyroStationary ax ay az gxr gyr gzr b1 b2 b3) := by
  unfold gyroStationary
  infer_instance

/-- One adaptive-trim step (part_003): when the stationary condition
holds, blend each raw gyro reading into the bias with
`bias_alpha = dt * 0.08` capped at `0.02`; otherwise leave the bias
unchanged. -/
noncomputable def gyroTrimStep (dt ax ay az gxr gyr gzr b1 b2 b3 : ℝ) :
    ℝ × ℝ × ℝ :=
  if gyroStationary ax ay az gxr gyr gzr b1 b2 b3 then
    let bias_alpha0 := dt * 0.08
    let bias_alpha := if bias_alpha0 > 0.02 then 0.02 else bias_alpha0
    ((1 - bias_alpha) * b1 + bias_alpha * gxr,
     (1 - bias_alpha) * b2 + bias_alpha * gyr,
     (1 - bias_alpha) * b3 + bias_alpha * gzr)
  else (b1, b2, b3)

/-- Persistent per-tick state of the AHRS loop in `action_test_gyro`
(part_003): the Madgwick filter, the adaptive gyro bias, the previous
tick's timestamp, and the last drawn attitude. -/
structure Loop003State where
  filter : MadgwickFilter
  gyro_bias_x : ℝ
  gyro_bias_y : ℝ
  gyro_bias_z : ℝ
  last_update : ℝ
  disp_roll : ℝ
  disp_pitch : ℝ

/-- One iteration of the AHRS loop body of `action_test_gyro` (part_003),
as a function of the loop state, the raw sensor read result (`none`
models a failed `icm20948_read_accel` or `icm20948_read_gyro`, on which
the loop executes `continue` before touching any state), and the current
time `now` in seconds.  The accelerometer bias from startup calibration
is constant across the loop and passed as `abx aby abz`.  The `isfinite`
gates are identically true over the reals, so the spike gate and the
post-filter reinitialization branch reduce to their remaining
conditions.  After a trim the source recomputes the corrected rates with
the new bias; when no trim happened the bias is unchanged, so a single
recomputation covers both paths. -/
noncomputable def tick003 (abx aby abz : ℝ) (st : Loop003State)
    (reading : Option ((ℤ × ℤ × ℤ) × (ℤ × ℤ × ℤ))) (now : ℝ) : Loop003State :=
  match reading with
  | none => st
  | some ((rax, ray, raz), (rgx, rgy, rgz)) =>
    let dt := validate_dt (now - st.last_update)
    let ax := ((icm20948_accel_to_g rax ACCEL_RANGE_4G : ℚ) : ℝ) - abx
    let ay := ((icm20948_accel_to_g ray ACCEL_RANGE_4G : ℚ) : ℝ) - aby
    let az := ((icm20948_accel_to_g raz ACCEL_RANGE_4G : ℚ) : ℝ) - abz
    let gx_raw := ((icm20948_gyro_to_dps rgx GYRO_RANGE_500DPS : ℚ) : ℝ)
    let gy_raw := ((icm20948_gyro_to_dps rgy GYRO_RANGE_500DPS : ℚ) : ℝ)
    let gz_raw := ((icm20948_gyro_to_dps rgz GYRO_RANGE_500DPS : ℚ) : ℝ)
    let gx0 := gx_raw - st.gyro_bias_x
    let gy0 := gy_raw - st.gyro_bias_y
    let gz0 := gz_raw - st.gyro_bias_z
    if |gx0| > 2000 ∨ |gy0| > 2000 ∨ |gz0| > 2000 then
      { st with last_update := now }
    else
      let nb := gyroTrimStep dt ax ay az gx_raw gy_raw gz_raw
        st.gyro_bias_x st.gyro_bias_y st.gyro_bias_z
      let gx_dps := gx_raw - nb.1
      let gy_dps := gy_raw - nb.2.1
      let gz_dps0 := gz_raw - nb.2.2
      let gz_dps := if |gz_dps0| < 0.15 then 0 else gz_dps0
      let gxr := gx_dps * Real.pi / 180
      let gyr := gy_dps * Real.pi / 180
      let gzr := gz_dps * Real.pi / 180
      let f0 : MadgwickFilter :=
        { st.filter with sample_freq := 1 / dt, inv_sample_freq := dt }
      let f1 := madgwick_update_imu f0 gxr gyr gzr ax ay az
      let roll := -(madgwick_get_roll_deg f1)
      let pitch0 := madgwick_get_pitch_deg f1
      let pitch := if pitch0 > 60 then 60 else if pitch0 < -60 then -60 else pitch0
      { filter := f1, gyro_bias_x := nb.1, gyro_bias_y := nb.2.1,
        gyro_bias_z := nb.2.2, last_update := now, disp_roll := roll,
        disp_pitch := pitch }

/-! ## Helper lemmas about the normalization step -/

lemma inv_sqrt_spec (x : ℝ) (h : inv_sqrt x ≠ 0) :
    1e-20 < x ∧ inv_sqrt x = 1 / Real.sqrt x := by
  unfold inv_sqrt at *
  split_ifs at h with h1
  · exact absurd rfl h
  · exact ⟨lt_of_not_le h1, if_neg h1⟩

lemma normSq_after_scale (w x y z : ℝ)
    (h : inv_sqrt (w * w + x * x + y * y + z * z) ≠ 0) :
    (w * inv_sqrt (w * w + x * x + y * y + z * z)) *
      (w * inv_sqrt (w * w + x * x + y * y + z * z)) +
    (x * inv_sqrt (w * w + x * x + y * y + z * z)) *
      (x * inv_sqrt (w * w + x * x + y * y + z * z)) +
    (y * inv_sqrt (w * w + x * x + y * y + z * z)) *
      (y * inv_sqrt (w * w + x * x + y * y + z * z)) +
    (z * inv_sqrt (w * w + x * x + y * y + z * z)) *
      (z * inv_sqrt (w * w + x * x + y * y + z * z)) = 1 := by
  obtain ⟨hgt, heq⟩ := inv_sqrt_spec _ h
  have hs : (0 : ℝ) < w * w + x * x + y * y + z * z := lt_trans (by norm_num) hgt
  rw [heq]
  have hsq : Real.sqrt (w * w + x * x + y * y + z * z) *
      Real.sqrt (w * w + x * x + y * y + z * z) = w * w + x * x + y * y + z * z :=
    Real.mul_self_sqrt hs.le
  have hne : Real.sqrt (w * w + x * x + y * y + z * z) ≠ 0 :=
    ne_of_gt (Real.sqrt_pos.mpr hs)
  field_simp

/-- After the integrate-and-normalize tail, the quaternion has squared norm
exactly one, or has been reset to the identity. -/
lemma integrateAndNormalize_normSq (f : MadgwickFilter) (a b c d : ℝ) :
    ((integrateAndNormalize f a b c d).q).normSq = 1 ∨
      (integrateAndNormalize f a b c d).q = identityQuat := by
  unfold integrateAndNormalize
  by_cases h : inv_sqrt ((f.q.q0 + a * f.inv_sample_freq) * (f.q.q0 + a * f.inv_sample_freq) +
      (f.q.q1 + b * f.inv_sample_freq) * (f.q.q1 + b * f.inv_sample_freq) +
      (f.q.q2 + c * f.inv_sample_freq) * (f.q.q2 + c * f.inv_sample_freq) +
      (f.q.q3 + d * f.inv_sample_freq) * (f.q.q3 + d * f.inv_sample_freq)) = 0
  · right
    simp only [h, if_pos]
    rfl
  · left
    simp only [h, if_neg, Quaternion.normSq]
    exact normSq_after_scale _ _ _ _ h

/-! ## Claim theorems about the filter core -/

/-- Claim C1: after every call to `madgwick_update` or
`madgwick_update_imu`, the filter quaternion has squared norm exactly one
(in exact arithmetic; within epsilon in floats), or equals the identity
quaternion `(1,0,0,0)` when the post-integration squared norm was
degenerate.  The filter never leaves a non-unit quaternion in its state. -/
theorem madgwick_norm_invariant (f : MadgwickFilter)
    (gx gy gz ax ay az mx my mz : ℝ) :
    ((madgwick_update_imu f gx gy gz ax ay az).q.normSq = 1 ∨
      (madgwick_update_imu f gx gy gz ax ay az).q = identityQuat) ∧
    ((madgwick_update f gx gy gz ax ay az mx my mz).q.normSq = 1 ∨
      (madgwick_update f gx gy gz ax ay az mx my mz).q = identityQuat) := by
  constructor
  · unfold madgwick_update_imu
    exact integrateAndNormalize_normSq f _ _ _ _
  · unfold madgwick_update
    by_cases h : mx = 0 ∧ my = 0 ∧ mz = 0
    · rw [if_pos h]
      unfold madgwick_update_imu
      exact integrateAndNormalize_normSq f _ _ _ _
    · rw [if_neg h]
      exact integrateAndNormalize_normSq f _ _ _ _

/-- Claim C4: calling the 9-DOF update with a magnetometer vector of
exactly `(0,0,0)` produces the same filter state as the 6-DOF IMU-only
update on the same gyroscope and accelerometer inputs. -/
theorem madgwick_zero_mag_is_imu (f : MadgwickFilter) (gx gy gz ax ay az : ℝ) :
    madgwick_update f gx gy gz ax ay az 0 0 0 =
      madgwick_update_imu f gx gy gz ax ay az := by
  unfold madgwick_update
  rw [if_pos ⟨rfl, rfl, rfl⟩]

/-- Claim C10: in the 9-DOF update, a non-zero magnetometer vector with a
degenerate squared norm (at most `1e-20`, so `inv_sqrt` returns `0`) makes
the update skip the whole corrective step — including the accelerometer
correction — leaving pure gyroscope integration followed by
renormalization. -/
theorem madgwick_degenerate_mag_skips_correction (f : MadgwickFilter)
    (gx gy gz ax ay az mx my mz : ℝ)
    (hm : ¬(mx = 0 ∧ my = 0 ∧ mz = 0))
    (hdeg : mx * mx + my * my + mz * mz ≤ 1e-20) :
    madgwick_update f gx gy gz ax ay az mx my mz =
      integrateAndNormalize f (gyroQDot f gx gy gz).1 (gyroQDot f gx gy gz).2.1
        (gyroQDot f gx gy gz).2.2.1 (gyroQDot f gx gy gz).2.2.2 := by
  have hmz : inv_sqrt (mx * mx + my * my + mz * mz) = 0 := by
    unfold inv_sqrt
    exact if_pos hdeg
  have hqd : margCorrectedQDot f gx gy gz ax ay az mx my mz = gyroQDot f gx gy gz := by
    simp only [margCorrectedQDot]
    split_ifs
    all_goals rfl
  unfold madgwick_update
  rw [if_neg hm]
  simp only [hqd]

/-- Witness for C10 at a concrete input: the magnetometer vector
`(1e-11, 0, 0)` is non-zero but has squared norm `1e-22 ≤ 1e-20`. -/
theorem madgwick_degenerate_mag_skips_correction_witness :
    (¬((1e-11 : ℝ) = 0 ∧ (0 : ℝ) = 0 ∧ (0 : ℝ) = 0)) ∧
    ((1e-11 : ℝ) * 1e-11 + 0 * 0 + 0 * 0 ≤ 1e-20) ∧
    madgwick_update ⟨⟨1, 0, 0, 0⟩, 0.1, 100, 0.01⟩ 0 0 0 0 0 1 1e-11 0 0 =
      integrateAndNormalize ⟨⟨1, 0, 0, 0⟩, 0.1, 100, 0.01⟩
        (gyroQDot ⟨⟨1, 0, 0, 0⟩, 0.1, 100, 0.01⟩ 0 0 0).1
        (gyroQDot ⟨⟨1, 0, 0, 0⟩, 0.1, 100, 0.01⟩ 0 0 0).2.1
        (gyroQDot ⟨⟨1, 0, 0, 0⟩, 0.1, 100, 0.01⟩ 0 0 0).2.2.1
        (gyroQDot ⟨⟨1, 0, 0, 0⟩, 0.1, 100, 0.01⟩ 0 0 0).2.2.2 :=
  ⟨by norm_num, by norm_num,
    madgwick_degenerate_mag_skips_correction ⟨⟨1, 0, 0, 0⟩, 0.1, 100, 0.01⟩
      0 0 0 0 0 1 1e-11 0 0 (by norm_num) (by norm_num)⟩

/-! ## Helper lemmas for the Euler conversion and heading wrap -/

lemma wrapUp_nonneg (deg : ℝ) : 0 ≤ wrapUp deg := by
  induction deg using wrapUp.induct with
  | case1 d hd ih =>
    rw [wrapUp, dif_pos hd]
    exact ih
  | case2 d hd =>
    rw [wrapUp, dif_neg hd]
    exact le_of_not_lt hd

lemma wrapDown_bounds : ∀ deg : ℝ, 0 ≤ deg → 0 ≤ wrapDown deg ∧ wrapDown deg < 360 := by
  intro deg
  induction deg using wrapDown.induct with
  | case1 d hd ih =>
    intro h0
    rw [wrapDown, dif_pos hd]
    exact ih (by linarith)
  | case2 d hd =>
    intro h0
    rw [wrapDown, dif_neg hd]
    exact ⟨h0, lt_of_not_le hd⟩

lemma pitch_rad_bounds (s : ℝ) :
    -(Real.pi / 2) ≤ (if 1 ≤ |s| then copysignf (Real.pi / 2) s else Real.arcsin s) ∧
    (if 1 ≤ |s| then copysignf (Real.pi / 2) s else Real.arcsin s) ≤ Real.pi / 2 := by
  have hp2 : (0 : ℝ) ≤ Real.pi / 2 := by positivity
  split_ifs with hb
  · unfold copysignf
    rw [abs_of_nonneg hp2]
    split_ifs with hneg
    · exact ⟨le_refl _, by linarith⟩
    · exact ⟨by linarith, le_refl _⟩
  · exact ⟨Real.neg_pi_div_two_le_arcsin s, Real.arcsin_le_pi_div_two s⟩

lemma deg_le_of_rad_le {x c : ℝ} (h : x ≤ c) :
    x * 180 / Real.pi ≤ c * 180 / Real.pi := by
  have hπ := Real.pi_pos
  exact (div_le_div_iff_of_pos_right hπ).mpr (by nlinarith)

lemma deg_lt_of_rad_lt {x c : ℝ} (h : x < c) :
    x * 180 / Real.pi < c * 180 / Real.pi := by
  have hπ := Real.pi_pos
  exact (div_lt_div_iff_of_pos_right hπ).mpr (by nlinarith)

lemma pi_half_deg : Real.pi / 2 * 180 / Real.pi = 90 := by
  rw [div_eq_iff (ne_of_gt Real.pi_pos)]
  ring

lemma neg_pi_half_deg : -(Real.pi / 2) * 180 / Real.pi = -90 := by
  rw [div_eq_iff (ne_of_gt Real.pi_pos)]
  ring

lemma pi_deg : Real.pi * 180 / Real.pi = 180 := by
  rw [div_eq_iff (ne_of_gt Real.pi_pos)]
  ring

lemma neg_pi_deg : -Real.pi * 180 / Real.pi = -180 := by
  rw [div_eq_iff (ne_of_gt Real.pi_pos)]
  ring

/-- Claim C3: pitch from `quaternion_to_euler` lies in `[-90, 90]` degrees,
with `|sinp| ≥ 1` yielding exactly ±90 degrees with the sign of `sinp`;
roll lies in `(-180, 180]` degrees; and `wrap360` maps every heading into
`[0, 360)`. -/
theorem euler_ranges_and_heading_wrap (f : MadgwickFilter) (d : ℝ) :
    (-90 ≤ madgwick_get_pitch_deg f ∧ madgwick_get_pitch_deg f ≤ 90) ∧
    (-180 < madgwick_get_roll_deg f ∧ madgwick_get_roll_deg f ≤ 180) ∧
    (1 ≤ 2 * (f.q.q0 * f.q.q2 - f.q.q3 * f.q.q1) → madgwick_get_pitch_deg f = 90) ∧
    (2 * (f.q.q0 * f.q.q2 - f.q.q3 * f.q.q1) ≤ -1 → madgwick_get_pitch_deg f = -90) ∧
    (0 ≤ wrap360 d ∧ wrap360 d < 360) := by
  have hpitch : (quaternion_to_euler f.q).2.1 =
      (if 1 ≤ |2 * (f.q.q0 * f.q.q2 - f.q.q3 * f.q.q1)| then
        copysignf (Real.pi / 2) (2 * (f.q.q0 * f.q.q2 - f.q.q3 * f.q.q1))
      else Real.arcsin (2 * (f.q.q0 * f.q.q2 - f.q.q3 * f.q.q1))) := rfl
  have hroll : (quaternion_to_euler f.q).1 =
      atan2f (2 * (f.q.q0 * f.q.q1 + f.q.q2 * f.q.q3))
        (1 - 2 * (f.q.q1 * f.q.q1 + f.q.q2 * f.q.q2)) := rfl
  refine ⟨?_, ?_, ?_, ?_, ?_⟩
  · obtain ⟨hl, hr⟩ := pitch_rad_bounds (2 * (f.q.q0 * f.q.q2 - f.q.q3 * f.q.q1))
    rw [← hpitch] at hl hr
    unfold madgwick_get_pitch_deg
    constructor
    · calc (-90 : ℝ) = -(Real.pi / 2) * 180 / Real.pi := neg_pi_half_deg.symm
        _ ≤ _ := deg_le_of_rad_le hl
    · calc (quaternion_to_euler f.q).2.1 * 180 / Real.pi
          ≤ Real.pi / 2 * 180 / Real.pi := deg_le_of_rad_le hr
        _ = 90 := pi_half_deg
  · unfold madgwick_get_roll_deg
    rw [hroll]
    unfold atan2f
    constructor
    · calc (-180 : ℝ) = -Real.pi * 180 / Real.pi := neg_pi_deg.symm
        _ < _ := deg_lt_of_rad_lt (Complex.neg_pi_lt_arg _)
    · calc Complex.arg _ * 180 / Real.pi
          ≤ Real.pi * 180 / Real.pi := deg_le_of_rad_le (Complex.arg_le_pi _)
        _ = 180 := pi_deg
  · intro hs
    have habs : 1 ≤ |2 * (f.q.q0 * f.q.q2 - f.q.q3 * f.q.q1)| :=
      le_trans hs (le_abs_self _)
    unfold madgwick_get_pitch_deg
    rw [hpitch, if_pos habs]
    unfold copysignf
    rw [if_neg (by linarith : ¬2 * (f.q.q0 * f.q.q2 - f.q.q3 * f.q.q1) < 0),
      abs_of_nonneg (by positivity : (0 : ℝ) ≤ Real.pi / 2)]
    exact pi_half_deg
  · intro hs
    have habs : 1 ≤ |2 * (f.q.q0 * f.q.q2 - f.q.q3 * f.q.q1)| := by
      rw [abs_of_nonpos (by linarith)]
      linarith
    unfold madgwick_get_pitch_deg
    rw [hpitch, if_pos habs]
    unfold copysignf
    rw [if_pos (by linarith : 2 * (f.q.q0 * f.q.q2 - f.q.q3 * f.q.q1) < 0),
      abs_of_nonneg (by positivity : (0 : ℝ) ≤ Real.pi / 2)]
    exact neg_pi_half_deg
  · exact wrapDown_bounds _ (wrapUp_nonneg d)

/-- Witness for C3 at the quaternion `(1, 0, 1, 0)`, whose `sinp` is `2`:
the clamped gimbal-lock branch yields exactly 90 degrees. -/
theorem euler_ranges_and_heading_wrap_witness :
    (1 ≤ 2 * ((1 : ℝ) * 1 - 0 * 0)) ∧
    madgwick_get_pitch_deg ⟨⟨1, 0, 1, 0⟩, 0, 0, 0⟩ = 90 :=
  ⟨by norm_num,
    (euler_ranges_and_heading_wrap ⟨⟨1, 0, 1, 0⟩, 0, 0, 0⟩ 0).2.2.1 (by norm_num)⟩

/-! ## Warning evaluation -/

/-- Claim C2: `bank_exceeded = |roll| > bank_limit(speed)` with a 20 degree
limit at speeds up to 85 knots and 30 degrees above, and
`pitch_exceeded = |pitch| > 20`, both strict; in particular speed 80 and
roll 25 trips the bank warning, speed 100 and roll 25 does not, pitch 21
trips the pitch warning and pitch 19 does not. -/
theorem warning_thresholds :
    (∀ s r : ℚ, bank_warning s r = decide (|r| > if s ≤ 85 then (20 : ℚ) else 30)) ∧
    (∀ p : ℚ, pitch_warning p = decide (|p| > 20)) ∧
    bank_warning 80 25 = true ∧ bank_warning 100 25 = false ∧
    pitch_warning 21 = true ∧ pitch_warning 19 = false := by
  refine ⟨fun s r => rfl, fun p => rfl, ?_, ?_, ?_, ?_⟩ <;> decide

/-! ## Adaptive bias trim -/

lemma blend_bounds {b g a : ℝ} (h0 : 0 ≤ a) (h1 : a ≤ 1) :
    min b g ≤ (1 - a) * b + a * g ∧ (1 - a) * b + a * g ≤ max b g := by
  rcases le_total b g with h | h
  · rw [min_eq_left h, max_eq_right h]
    constructor <;> nlinarith
  · rw [min_eq_right h, max_eq_left h]
    constructor <;> nlinarith

lemma blend_step_bound {b g a : ℝ} (h0 : 0 ≤ a) (h2 : a ≤ 0.02) :
    |(1 - a) * b + a * g - b| ≤ 0.02 * |g - b| := by
  have h3 : (1 - a) * b + a * g - b = a * (g - b) := by ring
  rw [h3, abs_mul, abs_of_nonneg h0]
  exact mul_le_mul_of_nonneg_right h2 (abs_nonneg _)

/-- Claim C5: the adaptive bias trim updates the gyro bias only when the
stationary condition holds, and then blends with
`bias_alpha = min(dt * 0.08, 0.02)`, so each new bias lies between the old
bias and the raw reading and moves by at most 2 percent of their
difference; otherwise all three biases are unchanged. -/
theorem adaptive_trim_step (dt ax ay az gxr gyr gzr b1 b2 b3 : ℝ)
    (hdt : 0 < dt) :
    (¬gyroStationary ax ay az gxr gyr gzr b1 b2 b3 →
      gyroTrimStep dt ax ay az gxr gyr gzr b1 b2 b3 = (b1, b2, b3)) ∧
    (gyroStationary ax ay az gxr gyr gzr b1 b2 b3 →
      (min b1 gxr ≤ (gyroTrimStep dt ax ay az gxr gyr gzr b1 b2 b3).1 ∧
        (gyroTrimStep dt ax ay az gxr gyr gzr b1 b2 b3).1 ≤ max b1 gxr ∧
        |(gyroTrimStep dt ax ay az gxr gyr gzr b1 b2 b3).1 - b1| ≤ 0.02 * |gxr - b1|) ∧
      (min b2 gyr ≤ (gyroTrimStep dt ax ay az gxr gyr gzr b1 b2 b3).2.1 ∧
        (gyroTrimStep dt ax ay az gxr gyr gzr b1 b2 b3).2.1 ≤ max b2 gyr ∧
        |(gyroTrimStep dt ax ay az gxr gyr gzr b1 b2 b3).2.1 - b2| ≤ 0.02 * |gyr - b2|) ∧
      (min b3 gzr ≤ (gyroTrimStep dt ax ay az gxr gyr gzr b1 b2 b3).2.2 ∧
        (gyroTrimStep dt ax ay az gxr gyr gzr b1 b2 b3).2.2 ≤ max b3 gzr ∧
        |(gyroTrimStep dt ax ay az gxr gyr gzr b1 b2 b3).2.2 - b3| ≤ 0.02 * |gzr - b3|)) := by
  have ha0 : 0 ≤ (if dt * 0.08 > 0.02 then (0.02 : ℝ) else dt * 0.08) := by
    split_ifs with h
    · norm_num
    · nlinarith
  have ha2 : (if dt * 0.08 > 0.02 then (0.02 : ℝ) else dt * 0.08) ≤ 0.02 := by
    split_ifs with h
    · exact le_refl _
    · exact le_of_not_lt h
  have ha1 : (if dt * 0.08 > 0.02 then (0.02 : ℝ) else dt * 0.08) ≤ 1 :=
    le_trans ha2 (by norm_num)
  constructor
  · intro hns
    unfold gyroTrimStep
    rw [if_neg hns]
  · intro hs
    have hstep : gyroTrimStep dt ax ay az gxr gyr gzr b1 b2 b3 =
        ((1 - (if dt * 0.08 > 0.02 then (0.02 : ℝ) else dt * 0.08)) * b1 +
          (if dt * 0.08 > 0.02 then (0.02 : ℝ) else dt * 0.08) * gxr,
         (1 - (if dt * 0.08 > 0.02 then (0.02 : ℝ) else dt * 0.08)) * b2 +
          (if dt * 0.08 > 0.02 then (0.02 : ℝ) else dt * 0.08) * gyr,
         (1 - (if dt * 0.08 > 0.02 then (0.02 : ℝ) else dt * 0.08)) * b3 +
          (if dt * 0.08 > 0.02 then (0.02 : ℝ) else dt * 0.08) * gzr) := by
      simp only [gyroTrimStep]
      rw [if_pos hs]
    rw [hstep]
    exact ⟨⟨(blend_bounds ha0 ha1).1, (blend_bounds ha0 ha1).2, blend_step_bound ha0 ha2⟩,
      ⟨(blend_bounds ha0 ha1).1, (blend_bounds ha0 ha1).2, blend_step_bound ha0 ha2⟩,
      ⟨(blend_bounds ha0 ha1).1, (blend_bounds ha0 ha1).2, blend_step_bound ha0 ha2⟩⟩

/-- Witness for C5 at a concrete stationary input: gravity-aligned
accelerometer `(0,0,1)`, raw gyro `(0.5, 0, 0)`, zero bias, `dt = 0.01`.
The bias step is bounded by 2 percent of the raw-minus-bias difference. -/
theorem adaptive_trim_step_witness :
    (0 : ℝ) < 0.01 ∧
    gyroStationary 0 0 1 0.5 0 0 0 0 0 ∧
    |(gyroTrimStep 0.01 0 0 1 0.5 0 0 0 0 0).1 - 0| ≤ 0.02 * |0.5 - 0| := by
  have hone : (0 : ℝ) * 0 + 0 * 0 + 1 * 1 = 1 := by norm_num
  have hstat : gyroStationary 0 0 1 0.5 0 0 0 0 0 := by
    unfold gyroStationary
    rw [hone, Real.sqrt_one]
    norm_num [abs_lt]
  exact ⟨by norm_num, hstat,
    ((adaptive_trim_step 0.01 0 0 1 0.5 0 0 0 0 0 (by norm_num)).2 hstat).1.2.2⟩

/-! ## dt validation -/

/-- Claim C6: the measured tick interval is validated before reaching the
filter: in the part_003 loop, `dt ≤ 0` or `dt > 0.2` is replaced by the
nominal period 0.01 and otherwise kept, so the value handed to the filter
is always positive and at most 0.2; the pico loop's clamp likewise yields
a value that is positive and within the sane bound. -/
theorem dt_validation (dt : ℝ) :
    ((dt ≤ 0 ∨ 0.2 < dt) → validate_dt dt = 0.01) ∧
    (¬(dt ≤ 0 ∨ 0.2 < dt) → validate_dt dt = dt) ∧
    (0 < validate_dt dt ∧ validate_dt dt ≤ 0.2) ∧
    (0 < pico_clamp_dt dt ∧ pico_clamp_dt dt ≤ 0.2) := by
  refine ⟨?_, ?_, ?_, ?_⟩
  · intro h
    unfold validate_dt
    rw [if_pos h]
  · intro h
    unfold validate_dt
    rw [if_neg h]
  · unfold validate_dt
    split_ifs with h
    · norm_num
    · push_neg at h
      exact ⟨h.1, h.2⟩
  · simp only [pico_clamp_dt]
    split_ifs <;> constructor <;> linarith

/-- Witness for C6: a negative measured interval is replaced by the
nominal period. -/
theorem dt_validation_witness :
    ((-1 : ℝ) ≤ 0 ∨ (0.2 : ℝ) < -1) ∧ validate_dt (-1) = 0.01 :=
  ⟨Or.inl (by norm_num), (dt_validation (-1)).1 (Or.inl (by norm_num))⟩

/-! ## Dropped sensor read -/

/-- Claim C7: a tick on which the accelerometer/gyroscope read fails
leaves the whole loop state — filter quaternion, gyro bias, timestamp and
displayed attitude — exactly unchanged; the loop continues without
resetting the filter. -/
theorem dropped_read_skips_tick (abx aby abz : ℝ) (st : Loop003State)
    (now : ℝ) : tick003 abx aby abz st none now = st := rfl

/-! ## Raw-to-physical conversion -/

/-- Claim C8: raw-to-physical conversion is a pure function of the raw
value and the range, using the datasheet divisor for each recognized
range (16384/8192/4096/2048 LSB per g, 131/65.5/32.8/16.4 LSB per deg/s)
and silently falling back to the ±4 g / ±500 deg/s divisor for every
unrecognized range value. -/
theorem raw_conversion_divisors (r : ℤ) :
    icm20948_accel_to_g r ACCEL_RANGE_4G = (r : ℚ) / 8192 ∧
    icm20948_gyro_to_dps r GYRO_RANGE_500DPS = (r : ℚ) / 65.5 ∧
    icm20948_accel_to_g r ACCEL_RANGE_2G = (r : ℚ) / 16384 ∧
    icm20948_accel_to_g r ACCEL_RANGE_8G = (r : ℚ) / 4096 ∧
    icm20948_accel_to_g r ACCEL_RANGE_16G = (r : ℚ) / 2048 ∧
    icm20948_gyro_to_dps r GYRO_RANGE_250DPS = (r : ℚ) / 131 ∧
    icm20948_gyro_to_dps r GYRO_RANGE_1000DPS = (r : ℚ) / 32.8 ∧
    icm20948_gyro_to_dps r GYRO_RANGE_2000DPS = (r : ℚ) / 16.4 ∧
    (∀ range : ℤ, range ≠ 0 ∧ range ≠ 1 ∧ range ≠ 2 ∧ range ≠ 3 →
      icm20948_accel_to_g r range = (r : ℚ) / 8192 ∧
      icm20948_gyro_to_dps r range = (r : ℚ) / 65.5) := by
  refine ⟨?_, ?_, ?_, ?_, ?_, ?_, ?_, ?_, ?_⟩
  · norm_num [icm20948_accel_to_g, ACCEL_RANGE_2G, ACCEL_RANGE_4G]
  · norm_num [icm20948_gyro_to_dps, GYRO_RANGE_250DPS, GYRO_RANGE_500DPS]
  · norm_num [icm20948_accel_to_g, ACCEL_RANGE_2G]
  · norm_num [icm20948_accel_to_g, ACCEL_RANGE_2G, ACCEL_RANGE_4G, ACCEL_RANGE_8G]
  · norm_num [icm20948_accel_to_g, ACCEL_RANGE_2G, ACCEL_RANGE_4G, ACCEL_RANGE_8G,
      ACCEL_RANGE_16G]
  · norm_num [icm20948_gyro_to_dps, GYRO_RANGE_250DPS]
  · norm_num [icm20948_gyro_to_dps, GYRO_RANGE_250DPS, GYRO_RANGE_500DPS,
      GYRO_RANGE_1000DPS]
  · norm_num [icm20948_gyro_to_dps, GYRO_RANGE_250DPS, GYRO_RANGE_500DPS,
      GYRO_RANGE_1000DPS, GYRO_RANGE_2000DPS]
  · intro range h
    obtain ⟨h0, h1, h2, h3⟩ := h
    constructor
    · simp [icm20948_accel_to_g, ACCEL_RANGE_2G, ACCEL_RANGE_4G, ACCEL_RANGE_8G,
        ACCEL_RANGE_16G, h0, h1, h2, h3]
    · simp [icm20948_gyro_to_dps, GYRO_RANGE_250DPS, GYRO_RANGE_500DPS,
        GYRO_RANGE_1000DPS, GYRO_RANGE_2000DPS, h0, h1, h2, h3]

/-- Witness for C8: the unrecognized range value 7 falls back to the ±4 g
and ±500 deg/s divisors. -/
theorem raw_conversion_divisors_witness :
    ((7 : ℤ) ≠ 0 ∧ (7 : ℤ) ≠ 1 ∧ (7 : ℤ) ≠ 2 ∧ (7 : ℤ) ≠ 3) ∧
    icm20948_accel_to_g 100 7 = (100 : ℚ) / 8192 ∧
    icm20948_gyro_to_dps 100 7 = (100 : ℚ) / 65.5 :=
  ⟨by decide,
    ((raw_conversion_divisors 100).2.2.2.2.2.2.2.2 7 (by decide)).1,
    ((raw_conversion_divisors 100).2.2.2.2.2.2.2.2 7 (by decide)).2⟩

/-! ## Read-failure semantics -/

/-- Claim C9: the accelerometer and gyroscope reads fail exactly when an
output pointer is NULL and otherwise always succeed, so a steady-state
SPI failure cannot be signalled through them; only the magnetometer read
(data-ready and overflow status bits) can fail per tick, as the concrete
all-zero-bus case shows. -/
theorem read_failure_semantics :
    (∀ (n : Bool) (buf : Fin 6 → ℕ),
      icm20948_read_accel n buf = none ↔ n = true) ∧
    (∀ (n : Bool) (buf : Fin 6 → ℕ),
      icm20948_read_gyro n buf = none ↔ n = true) ∧
    (∀ (na ng : Bool) (buf : Fin 12 → ℕ),
      icm20948_read_accel_gyro na ng buf = none ↔ (na = true ∨ ng = true)) ∧
    icm20948_read_mag false (fun _ => 0) = none := by
  refine ⟨?_, ?_, ?_, ?_⟩
  · intro n buf
    cases n <;> simp [icm20948_read_accel]
  · intro n buf
    cases n <;> simp [icm20948_read_gyro]
  · intro na ng buf
    cases na <;> cases ng <;> simp [icm20948_read_accel_gyro]
  · rfl

end PilotAssistant
